import Mathlib

/-!
Shallow embedding of the notebooks of the repository (`lowLevelAPI.ipynb`,
`main.ipynb`, `student-main.ipynb`): the word-count RDD pipeline, the
generic RDD transformations, and the wine DataFrame operations
(CSV read, duplicate assertion, column rename, SQL versus DataFrame
aggregation, vector assembly, random split, parameter grid).
Rows, RDDs and columns are modelled as Lean lists; machine floats of the
wine data are modelled as rationals.
-/

namespace SparkSpec

/-! ## Word-count pipeline (lowLevelAPI.ipynb) -/

/-- Python `x.lower()` applied to a line of the corpus: lowercase every
character. -/
def pyLower (s : String) : String := String.mk (s.data.map Char.toLower)

/-- Helper for `pySplit`: scan the characters, accumulating the current
token in reverse; whitespace ends the current token, and runs of
whitespace produce no empty tokens. -/
def splitWsAux : List Char → List Char → List String
  | [], [] => []
  | [], acc => [String.mk acc.reverse]
  | c :: cs, acc =>
    if c.isWhitespace then
      match acc with
      | [] => splitWsAux cs []
      | _ => String.mk acc.reverse :: splitWsAux cs []
    else splitWsAux cs (c :: acc)

/-- Python `x.split()` with no argument: split on runs of whitespace,
producing no empty tokens. -/
def pySplit (s : String) : List String := splitWsAux s.data []

/-- The tokens of the corpus after `lyrics.map(lambda x: x.lower())` and
`lyrics.flatMap(lambda x: x.split())`. -/
def corpusTokens (corpus : List String) : List String :=
(corpus.map pyLower).flatMap pySplit

/-- `lambda x: (x, 1)`: map each token to the pair (token, 1). -/
def pairOne (t : String) : String × Nat := (t, 1)

/-- The combining function `lambda x,y: x+y` passed to `reduceByKey`. -/
def combine (x y : Nat) : Nat := x + y

/-- The multiset of values stored under key `k` in a keyed collection. -/
def valuesOf [BEq K] (k : K) (l : List (K × V)) : List V :=
(l.filter (fun p => p.1 == k)).map Prod.snd

/-- The distinct keys of a keyed collection, in order of first occurrence. -/
def keysOf [DecidableEq K] (l : List (K × V)) : List K :=
(l.map Prod.fst).dedup

/-- Spark `reduceByKey f`: for each distinct key, reduce all values sharing
that key with `f`, producing exactly one pair per key. -/
def reduceByKey [DecidableEq K] (f : V → V → V) (l : List (K × V)) : List (K × V) :=
(keysOf l).filterMap (fun k =>
  match valuesOf k l with
  | [] => none
  | v :: vs => some (k, vs.foldl f v))

/-- The whole word-count pipeline of `lowLevelAPI.ipynb`:
lowercase, split, pair with 1, reduce by key with addition. -/
def wordCount (corpus : List String) : List (String × Nat) :=
reduceByKey combine ((corpusTokens corpus).map pairOne)

/-! ## Generic RDD transformations and the RDD store of the driver -/

/-- A dynamically typed element of an RDD, as in the Python notebook
(integers, strings, and key/value pairs for the keyed stages). -/
inductive PyVal where
  | intV (n : Int)
  | strV (s : String)
  | pairV (k : String) (v : Nat)
deriving DecidableEq

/-- View a `PyVal` as a key/value pair if it is one. -/
def PyVal.toPair : PyVal → Option (String × Nat)
  | .pairV k v => some (k, v)
  | _ => none

/-- `reduceByKey` lifted to dynamically typed RDD elements: reduce the
key/value pairs of the collection. -/
def reduceByKeyL (f : Nat → Nat → Nat) (l : List PyVal) : List PyVal :=
(reduceByKey f (l.filterMap PyVal.toPair)).map (fun q => PyVal.pairV q.1 q.2)

/-- The RDD transformations invoked in `lowLevelAPI.ipynb`.  `sampleT`
models seeded sampling without replacement as selection by a predicate on
element indices (the seed determines the predicate). -/
inductive RddTransform where
  | filterT (p : PyVal → Bool)
  | sampleT (keep : Nat → Bool)
  | mapT (f : PyVal → PyVal)
  | flatMapT (f : PyVal → List PyVal)
  | reduceByKeyT (f : Nat → Nat → Nat)

/-- Run one transformation on the elements of an RDD, producing the
elements of the new RDD. -/
def RddTransform.run : RddTransform → List PyVal → List PyVal
  | .filterT p, l => l.filter p
  | .sampleT keep, l => (l.enum.filter (fun q => keep q.1)).map Prod.snd
  | .mapT f, l => l.map f
  | .flatMapT f, l => l.flatMap f
  | .reduceByKeyT f, l => reduceByKeyL f l

/-- One step of the driver program: apply a transformation to the RDD
stored under `src`, storing the resulting new RDD under `dst`. -/
structure RddStep where
  src : Nat
  dst : Nat
  t : RddTransform

/-- The store of RDDs held by the driver, keyed by identifier. -/
def Store := List (Nat × List PyVal)

/-- Look up the elements of the RDD with identifier `i`. -/
def lookupRdd (st : Store) (i : Nat) : Option (List PyVal) :=
(List.find? (fun q => q.1 == i) st).map Prod.snd

/-- Execute one step: a transformation never mutates its source RDD; it
binds a new RDD under the destination identifier. -/
def runStep (st : Store) (s : RddStep) : Store :=
  match lookupRdd st s.src with
  | some l => (s.dst, s.t.run l) :: st
  | none => st

/-- Execute a chain of transformations. -/
def runChain (st : Store) (ss : List RddStep) : Store :=
ss.foldl runStep st

/-! ## Reduction trees: order and grouping of a reduceByKey combiner -/

/-- A way of combining a nonempty collection of values: a binary tree
whose leaves are the values. -/
inductive CombTree (α : Type) where
  | leaf (a : α)
  | node (l r : CombTree α)

/-- The values at the leaves, left to right. -/
def CombTree.leaves {α : Type} : CombTree α → List α
  | .leaf a => [a]
  | .node l r => l.leaves ++ r.leaves

/-- Evaluate the tree with combining function `f`: one particular order
and grouping of the reduction. -/
def CombTree.eval {α : Type} (f : α → α → α) : CombTree α → α
  | .leaf a => a
  | .node l r => f (l.eval f) (r.eval f)

/-! ## Wine DataFrame (main.ipynb) -/

/-- A DataFrame: named columns and rows of cells. -/
structure Frame where
  cols : List String
  rows : List (List Rat)

/-- `colNames` exactly as in `main.ipynb`. -/
def colNames : List String :=
[ "target", "alcohol", "malic_acid", "ash", "alcalinity_of_ash", "magnesium",
  "total_phenols", "flavanoids", "nonflavanoid_phenols", "proanthocyanins",
  "color_intensity", "hue", "od280_od315_of_diluted_wines", "proline" ]

/-- `spark.read.csv(..., header=...)`: with `header=True` the first line
becomes column names and is dropped from the data; with `header=False`
every line, the first included, is a data row.  `main.ipynb` passes
`header=False`. -/
def readCsvRows (header : Bool) (lines : List String) : List String :=
if header then lines.drop 1 else lines

/-- The distinct class-label values of the wine data with their counts, as
recorded by the `valueCounts` query output in `main.ipynb`. -/
def wineTargetCounts : List (Int × Nat) := [(1, 59), (2, 71), (3, 48)]

/-- The distinct class-label values of the wine data. -/
def wineTargetValues : List Int := wineTargetCounts.map Prod.fst

/-- `df.count()`. -/
def sparkCount {α : Type} (l : List α) : Nat := l.length

/-- `df.dropDuplicates()`: keep one representative of every distinct row. -/
def dropDuplicates {α : Type} [DecidableEq α] (l : List α) : List α := l.dedup

/-- The condition of the single assertion of the notebook
`assert wine.count() == wine.dropDuplicates().count()`. -/
def dupAssertPasses {α : Type} [DecidableEq α] (l : List α) : Bool :=
sparkCount l == sparkCount (dropDuplicates l)

/-- `df.withColumnRenamed(oldName, newName)`: rename every column whose
name is `oldName`; the rows are untouched. -/
def withColumnRenamed (oldName newName : String) (df : Frame) : Frame :=
{ cols := df.cols.map (fun c => if c = oldName then newName else c),
  rows := df.rows }

/-- The wine column names after the rename performed in `main.ipynb`. -/
def renamedColNames : List String :=
colNames.map (fun c => if c = "od280_od315_of_diluted_wines" then "od280" else c)

/-! ## SQL query versus DataFrame chain (avgAlcohol) -/

/-- The `target` cell of a wine row (column 0). -/
def targetOf (r : List Rat) : Rat := r.getD 0 0

/-- The `alcohol` cell of a wine row (column 1). -/
def alcoholOf (r : List Rat) : Rat := r.getD 1 0

/-- `AVG`: the arithmetic mean of a list of values. -/
def avgRat (l : List Rat) : Rat := l.sum / l.length

/-- `ROUND(x, 2)`: round to two decimal places. -/
def round2 (q : Rat) : Rat := ((round (q * 100) : Int) : Rat) / 100

/-- `ORDER BY` / `orderBy` on the group key: sort result rows by their
first component. -/
def orderByKey (l : List (Rat × Rat)) : List (Rat × Rat) :=
l.mergeSort (fun a b => a.1 ≤ b.1)

/-- The SQL query of `main.ipynb`:
`SELECT target, ROUND(AVG(alcohol), 2) AS avgAlcohol FROM wine GROUP BY target ORDER BY target`.
Grouping is over the full wine rows; the aggregate reads the `alcohol`
cell of each row of the group. -/
def sqlAvgAlcohol (rows : List (List Rat)) : List (Rat × Rat) :=
orderByKey (((rows.map targetOf).dedup).map (fun t =>
  (t, round2 (avgRat ((rows.filter (fun r => targetOf r == t)).map alcoholOf)))))

/-- `wine.select` of the target and alcohol columns: project each row to its
(target, alcohol) pair. -/
def selectTargetAlcohol (rows : List (List Rat)) : List (Rat × Rat) :=
rows.map (fun r => (targetOf r, alcoholOf r))

/-- The DataFrame chain of `main.ipynb`:
select, then groupBy target, then agg round(avg(alcohol), 2) with alias avgAlcohol, then orderBy target. -/
def dfAvgAlcohol (rows : List (List Rat)) : List (Rat × Rat) :=
orderByKey ((((selectTargetAlcohol rows).map Prod.fst).dedup).map (fun t =>
  (t, round2 (avgRat (((selectTargetAlcohol rows).filter (fun p => p.1 == t)).map Prod.snd)))))

/-! ## Train/test split and pipeline fit -/

/-- The split weights passed to `wine.randomSplit([0.7, 0.3], seed=23)`. -/
def splitWeights : List Rat := [7/10, 3/10]

/-- The seed passed to `wine.randomSplit([0.7, 0.3], seed=23)`. -/
def splitSeed : Nat := 23

/-- `randomSplit`, first component: the seeded pseudo-random assignment is
modelled by a predicate `choose` on row indices; a row goes to the first
(0.7) subset exactly when its index is chosen. -/
def trainOf {α : Type} (choose : Nat → Bool) (rows : List α) : List α :=
(rows.enum.filter (fun q => choose q.1)).map Prod.snd

/-- `randomSplit`, second component: the rows whose index is not chosen. -/
def testOf {α : Type} (choose : Nat → Bool) (rows : List α) : List α :=
(rows.enum.filter (fun q => !(choose q.1))).map Prod.snd

/-- `wine.randomSplit([0.7, 0.3], seed=23)`: the pair (train, test). -/
def randomSplit {α : Type} (choose : Nat → Bool) (rows : List α) : List α × List α :=
(trainOf choose rows, testOf choose rows)

/-- `pipeModel = pipe.fit(train)`: the trained artifact is the fitting
function applied to the training subset only. -/
def pipeFit {α M : Type} (fit : List α → M) (train : List α) : M := fit train

/-! ## Vector assembly -/

/-- `VectorAssembler(inputCols=wine.columns[1:], ...)`: the input columns
are all columns of the renamed wine frame except the first. -/
def assemblerInputCols : List String := renamedColNames.drop 1

/-- The index of column `c` in the column list `cols`. -/
def colIndexOf (cols : List String) (c : String) : Nat := cols.indexOf c

/-- Assemble the feature vector of one row: the values of the input
columns, in column order. -/
def assembleRow (cols inputCols : List String) (row : List Rat) : List Rat :=
inputCols.map (fun c => row.getD (colIndexOf cols c) 0)

/-! ## Parameter grid and cross-validation -/

/-- The `numTrees` values of the grid in `main.ipynb`. -/
def numTreesGrid : List Nat := [50, 100, 150]

/-- The `maxDepth` values of the grid in `main.ipynb`. -/
def maxDepthGrid : List Nat := [5, 10, 15]

/-- `ParamGridBuilder().addGrid(numTrees, ...).addGrid(maxDepth, ...).build()`:
the cross product of the two value lists. -/
def paramGrid : List (Nat × Nat) :=
numTreesGrid.flatMap (fun n => maxDepthGrid.map (fun d => (n, d)))

/-- `CrossValidator(..., numFolds=5)`. -/
def numFolds : Nat := 5

/-- `cvModel.avgMetrics`: one average metric per grid combination, the mean
of the per-fold scores of that combination. -/
def cvAvgMetrics (score : Nat × Nat → Nat → Rat) : List Rat :=
paramGrid.map (fun p => ((List.range numFolds).map (score p)).sum / (numFolds : Rat))

/-! ## Lemmas: word count -/

lemma filterMap_eq_map_of_forall {α β : Type} {g : α → Option β} {h : α → β} :
    ∀ l : List α, (∀ a ∈ l, g a = some (h a)) → l.filterMap g = l.map h := by
  intro l
  induction l with
  | nil => intro _; rfl
  | cons a l ih =>
    intro H
    rw [List.filterMap_cons, H a (List.mem_cons_self a l),
      ih (fun x hx => H x (List.mem_cons_of_mem a hx)), List.map_cons]

lemma valuesOf_map_pairOne (tokens : List String) (k : String) :
    valuesOf k (tokens.map pairOne) = List.replicate (tokens.count k) 1 := by
  induction tokens with
  | nil => rfl
  | cons t ts ih =>
    rw [List.map_cons]
    by_cases h : (t == k) = true
    · have h1 : valuesOf k (pairOne t :: ts.map pairOne) = 1 :: valuesOf k (ts.map pairOne) := by
        simp [valuesOf, pairOne, List.filter_cons, h]
      have h2 : (t :: ts).count k = ts.count k + 1 := by
        rw [List.count_cons]
        simp [h]
      rw [h1, ih, h2, List.replicate_succ]
    · have h1 : valuesOf k (pairOne t :: ts.map pairOne) = valuesOf k (ts.map pairOne) := by
        simp [valuesOf, pairOne, List.filter_cons, h]
      have h2 : (t :: ts).count k = ts.count k := by
        rw [List.count_cons]
        simp [h]
      rw [h1, ih, h2]

lemma keysOf_map_pairOne (tokens : List String) :
    keysOf (tokens.map pairOne) = tokens.dedup := by
  simp only [keysOf, List.map_map]
  have : (Prod.fst ∘ pairOne) = fun t => t := rfl
  rw [this, List.map_id']

lemma foldl_combine_replicate (n : Nat) : ∀ a : Nat,
    List.foldl combine a (List.replicate n 1) = a + n := by
  induction n with
  | zero => intro a; simp
  | succ n ih =>
    intro a
    rw [List.replicate_succ, List.foldl_cons, ih]
    simp [combine]
    omega

lemma reduceByKey_pair1 (tokens : List String) :
    reduceByKey combine (tokens.map pairOne) =
      tokens.dedup.map (fun k => (k, tokens.count k)) := by
  unfold reduceByKey
  rw [keysOf_map_pairOne]
  apply filterMap_eq_map_of_forall
  intro k hk
  have hmem : k ∈ tokens := List.mem_dedup.mp hk
  have hpos : 0 < tokens.count k := List.count_pos_iff.mpr hmem
  rw [valuesOf_map_pairOne]
  obtain ⟨m, hm⟩ : ∃ m, tokens.count k = m + 1 := ⟨tokens.count k - 1, by omega⟩
  rw [hm, List.replicate_succ]
  show some (k, List.foldl combine 1 (List.replicate m 1)) = some (k, m + 1)
  rw [foldl_combine_replicate]
  simp [Nat.add_comm]

/-! ## Claim theorems: word count and combiner algebra -/

/-- Claim C1: the word-count pipeline (lowercase each line, split each line
on whitespace, map each token to (token, 1), reduce pairs by key with
addition) produces, for every token of the lowercased whitespace-split
corpus, exactly one pair (token, n) with n the number of occurrences of
that token, and produces no pair for any other token. -/
theorem wordCount_pairs_exact (corpus : List String) :
    ((wordCount corpus).map Prod.fst).Nodup ∧
    (∀ t n, ((t, n) ∈ wordCount corpus ↔
      (t ∈ corpusTokens corpus ∧ n = (corpusTokens corpus).count t))) := by
  have h := reduceByKey_pair1 (corpusTokens corpus)
  unfold wordCount
  rw [h]
  constructor
  · rw [List.map_map]
    have he : (Prod.fst ∘ fun k => (k, (corpusTokens corpus).count k)) = fun k => k := rfl
    rw [he, List.map_id']
    exact List.nodup_dedup _
  · intro t n
    simp only [List.mem_map, List.mem_dedup]
    constructor
    · rintro ⟨k, hk, he⟩
      rw [Prod.mk.injEq] at he
      obtain ⟨rfl, rfl⟩ := he
      exact ⟨hk, rfl⟩
    · rintro ⟨ht, rfl⟩
      exact ⟨t, ht, rfl⟩

/-- Claim C1 witness: the pipeline evaluated on a concrete two-line corpus. -/
theorem wordCount_pairs_exact_witness :
    (("ninja", 2) ∈ wordCount ["Teenage Mutant Ninja", "ninja turtles"] ∧
      ("ninja" ∈ corpusTokens ["Teenage Mutant Ninja", "ninja turtles"] ∧
       2 = (corpusTokens ["Teenage Mutant Ninja", "ninja turtles"]).count "ninja")) ∧
    ((wordCount ["Teenage Mutant Ninja", "ninja turtles"]).map Prod.fst).Nodup := by
  refine ⟨⟨?_, ?_⟩, (wordCount_pairs_exact ["Teenage Mutant Ninja", "ninja turtles"]).1⟩
  · exact ((wordCount_pairs_exact ["Teenage Mutant Ninja", "ninja turtles"]).2 "ninja" 2).mpr
      (by decide)
  · exact by decide

lemma eval_combine_eq_sum (t : CombTree Nat) : t.eval combine = t.leaves.sum := by
  induction t with
  | leaf a => simp [CombTree.eval, CombTree.leaves]
  | node l r ihl ihr =>
    simp [CombTree.eval, CombTree.leaves, combine, ihl, ihr]

/-- Claim C10: the combining function lambda x,y: x+y is commutative and
associative, and consequently every order and grouping of combining the
values of a key (any reduction tree over the same multiset of values)
yields the same result, and reduceByKey on the (token, 1) pairs yields the
same (token, count) pairs for any reordering of the input. -/
theorem combine_comm_assoc_deterministic :
    (∀ x y, combine x y = combine y x) ∧
    (∀ x y z, combine (combine x y) z = combine x (combine y z)) ∧
    (∀ t1 t2 : CombTree Nat, List.Perm t1.leaves t2.leaves →
      t1.eval combine = t2.eval combine) ∧
    (∀ l1 l2 : List String, List.Perm l1 l2 → ∀ t n,
      ((t, n) ∈ reduceByKey combine (l1.map pairOne) ↔
       (t, n) ∈ reduceByKey combine (l2.map pairOne))) := by
  refine ⟨fun x y => Nat.add_comm x y, fun x y z => Nat.add_assoc x y z, ?_, ?_⟩
  · intro t1 t2 hp
    rw [eval_combine_eq_sum, eval_combine_eq_sum]
    exact List.Perm.sum_eq hp
  · intro l1 l2 hp t n
    rw [reduceByKey_pair1, reduceByKey_pair1]
    simp only [List.mem_map, List.mem_dedup]
    constructor
    · rintro ⟨k, hk, he⟩
      exact ⟨k, hp.mem_iff.mp hk, by rw [← hp.count_eq]; exact he⟩
    · rintro ⟨k, hk, he⟩
      exact ⟨k, hp.mem_iff.mpr hk, by rw [hp.count_eq]; exact he⟩

/-- Claim C10 witness: a concrete regrouped, reordered reduction tree and a
concrete permuted pair list give the same results. -/
theorem combine_comm_assoc_deterministic_witness :
    ((CombTree.node (CombTree.node (CombTree.leaf 1) (CombTree.leaf 2)) (CombTree.leaf 3)).eval
        combine =
      (CombTree.node (CombTree.leaf 3) (CombTree.node (CombTree.leaf 2) (CombTree.leaf 1))).eval
        combine) ∧
    (("a", 2) ∈ reduceByKey combine (["a", "b", "a"].map pairOne) ↔
      ("a", 2) ∈ reduceByKey combine (["b", "a", "a"].map pairOne)) := by
  refine ⟨combine_comm_assoc_deterministic.2.2.1 _ _ (by decide), ?_⟩
  exact combine_comm_assoc_deterministic.2.2.2 ["a", "b", "a"] ["b", "a", "a"] (by decide) "a" 2

/-! ## Claim theorems: RDD immutability and the duplicate assertion -/

lemma lookupRdd_runStep_ne (st : Store) (s : RddStep) (i : Nat) (h : s.dst ≠ i) :
    lookupRdd (runStep st s) i = lookupRdd st i := by
  unfold runStep
  cases hl : lookupRdd st s.src with
  | none => rfl
  | some l =>
    show lookupRdd ((s.dst, s.t.run l) :: st) i = lookupRdd st i
    unfold lookupRdd
    rw [List.find?_cons]
    have hb : ((s.dst, s.t.run l).1 == i) = false := by
      simp only [beq_eq_false_iff_ne, ne_eq]
      exact h
    rw [hb]

lemma lookupRdd_runChain_ne (ss : List RddStep) (st : Store) (i : Nat)
    (h : ∀ s ∈ ss, s.dst ≠ i) :
    lookupRdd (runChain st ss) i = lookupRdd st i := by
  induction ss generalizing st with
  | nil => rfl
  | cons s ss ih =>
    show lookupRdd (runChain (runStep st s) ss) i = lookupRdd st i
    rw [ih (runStep st s) (fun x hx => h x (List.mem_cons_of_mem s hx))]
    exact lookupRdd_runStep_ne st s i (h s (List.mem_cons_self s ss))

/-- Claim C8: every transformation invoked on an RDD in the repository
(filter, sample, map, flatMap, reduceByKey) leaves its source collection
unchanged and binds its result as a new collection: after one step, and
after any chain of steps whose destinations are fresh, the original
collection is still stored unchanged, with its elements in their original
order. -/
theorem rdd_transformations_immutable :
    (∀ (st : Store) (s : RddStep) (i : Nat), s.dst ≠ i →
      lookupRdd (runStep st s) i = lookupRdd st i) ∧
    (∀ (st : Store) (ss : List RddStep) (i : Nat), (∀ s ∈ ss, s.dst ≠ i) →
      lookupRdd (runChain st ss) i = lookupRdd st i) :=
  ⟨fun st s i h => lookupRdd_runStep_ne st s i h,
   fun st ss i h => lookupRdd_runChain_ne ss st i h⟩

/-- Claim C8 witness: the chain of transformations of `lowLevelAPI.ipynb`
run on the RDD stored under identifier 0 leaves that RDD exactly as
created. -/
theorem rdd_transformations_immutable_witness :
    lookupRdd
      (runChain [(0, [1, 2, 3, 4, 5, 6, 7, 8, 9, 10].map PyVal.intV)]
        [⟨0, 1, RddTransform.filterT (fun v =>
            match v with
            | PyVal.intV n => n % 2 == 0
            | _ => false)⟩,
         ⟨0, 2, RddTransform.sampleT (fun i => i % 3 == 0)⟩,
         ⟨0, 3, RddTransform.mapT (fun v => v)⟩,
         ⟨0, 4, RddTransform.flatMapT (fun v => [v, v])⟩,
         ⟨1, 5, RddTransform.reduceByKeyT (fun x y => x + y)⟩])
      0 =
    some ([1, 2, 3, 4, 5, 6, 7, 8, 9, 10].map PyVal.intV) := by
  rw [rdd_transformations_immutable.2 _ _ 0 ?_]
  · rfl
  · intro x hx
    simp only [List.mem_cons, List.not_mem_nil, or_false] at hx
    rcases hx with rfl | rfl | rfl | rfl | rfl <;> decide

/-- Claim C2: the duplicate-check assertion
`assert wine.count() == wine.dropDuplicates().count()` passes if and only
if the rows are pairwise distinct; equivalently it raises exactly when the
dataset contains at least one duplicate row; and on a duplicate-free
dataset duplicate removal leaves the dataset unchanged. -/
theorem dup_assert_iff {α : Type} [DecidableEq α] (wine : List α) :
    (dupAssertPasses wine = true ↔ wine.Nodup) ∧
    (dupAssertPasses wine = false ↔ ¬ wine.Nodup) ∧
    (wine.Nodup → dropDuplicates wine = wine) := by
  have key : dupAssertPasses wine = true ↔ wine.Nodup := by
    unfold dupAssertPasses sparkCount dropDuplicates
    rw [beq_iff_eq]
    constructor
    · intro h
      have hs := List.dedup_sublist wine
      have he : wine.dedup = wine := hs.eq_of_length h.symm
      exact List.dedup_eq_self.mp he
    · intro h
      rw [List.dedup_eq_self.mpr h]
  refine ⟨key, ?_, fun h => List.dedup_eq_self.mpr h⟩
  rw [← key]
  cases dupAssertPasses wine <;> simp

/-- Claim C2 witness: on a concrete duplicate-free dataset the assertion
passes and the dataset is unchanged; on a concrete dataset with a
duplicate row the assertion raises. -/
theorem dup_assert_iff_witness :
    dupAssertPasses ([0, 1, 2] : List Nat) = true ∧
    dropDuplicates ([0, 1, 2] : List Nat) = [0, 1, 2] ∧
    dupAssertPasses ([0, 1, 0] : List Nat) = false :=
  ⟨(dup_assert_iff ([0, 1, 2] : List Nat)).1.mpr (by decide),
   (dup_assert_iff ([0, 1, 2] : List Nat)).2.2 (by decide),
   (dup_assert_iff ([0, 1, 0] : List Nat)).2.1.mpr (by decide)⟩

/-! ## Claim theorems: CSV read, random split -/

/-- Claim C3: the wine dataset is read headerless (the first line of the
file is data, not column names) and is assigned exactly 14 column names,
the class label `target` first, followed by 13 feature columns; the class
label takes one of the 3 values recorded by the valueCounts query. -/
theorem wine_read_headerless_columns :
    (∀ lines : List String, readCsvRows false lines = lines) ∧
    (∀ lines : List String, (readCsvRows false lines).headD "" = lines.headD "") ∧
    colNames.length = 14 ∧
    colNames.getD 0 "" = "target" ∧
    (colNames.drop 1).length = 13 ∧
    wineTargetValues = [1, 2, 3] ∧
    wineTargetValues.length = 3 :=
  ⟨fun _ => rfl, fun _ => rfl, by decide, by decide, by decide, by decide, by decide⟩

lemma trainOf_append_testOf_perm {α : Type} (choose : Nat → Bool) (rows : List α) :
    List.Perm (trainOf choose rows ++ testOf choose rows) rows := by
  unfold trainOf testOf
  rw [← List.map_append]
  have hp := List.filter_append_perm (fun q : Nat × α => choose q.1) rows.enum
  have hm := hp.map Prod.snd
  have he : rows.enum.map Prod.snd = rows := List.enumFrom_map_snd 0 rows
  rwa [he] at hm

/-- Claim C4: `randomSplit([0.7, 0.3], seed=23)` splits the rows into two
disjoint subsets whose concatenation is a permutation of the input, every
indexed row landing in exactly one of the two subsets, and the pipeline
artifact `pipe.fit(train)` is a function of the train subset alone. -/
theorem random_split_partition_fit {α M : Type} (choose : Nat → Bool) (rows : List α) :
    List.Perm (trainOf choose rows ++ testOf choose rows) rows ∧
    ((trainOf choose rows).length + (testOf choose rows).length = rows.length) ∧
    (∀ q ∈ rows.enum,
      (q ∈ rows.enum.filter (fun p => choose p.1) ↔ choose q.1 = true) ∧
      (q ∈ rows.enum.filter (fun p => !(choose p.1)) ↔ choose q.1 = false)) ∧
    randomSplit choose rows = (trainOf choose rows, testOf choose rows) ∧
    (∀ (fit : List α → M) (choose2 : Nat → Bool) (rows2 : List α),
      trainOf choose rows = trainOf choose2 rows2 →
      pipeFit fit (trainOf choose rows) = pipeFit fit (trainOf choose2 rows2)) ∧
    splitWeights = [7 / 10, 3 / 10] ∧ splitSeed = 23 := by
  have hperm := trainOf_append_testOf_perm choose rows
  refine ⟨hperm, ?_, ?_, rfl, ?_, rfl, rfl⟩
  · have := hperm.length_eq
    rwa [List.length_append] at this
  · intro q hq
    constructor
    · simp [List.mem_filter, hq]
    · simp [List.mem_filter, hq]
  · intro fit choose2 rows2 h
    unfold pipeFit
    rw [h]

/-- Claim C4 witness: a concrete split of a three-row dataset; the second
indexed row lands in the test subset and not in the train subset, and the
fit artifact agrees on equal train subsets. -/
theorem random_split_partition_fit_witness :
    List.Perm
      (trainOf (fun i => i % 2 == 0) ([10, 20, 30] : List Nat) ++
        testOf (fun i => i % 2 == 0) ([10, 20, 30] : List Nat))
      [10, 20, 30] ∧
    (((1, 20) ∈ ([10, 20, 30] : List Nat).enum.filter
        (fun p => (fun i => i % 2 == 0) p.1) ↔ (fun i => i % 2 == 0) 1 = true) ∧
      ((1, 20) ∈ ([10, 20, 30] : List Nat).enum.filter
        (fun p => !((fun i => i % 2 == 0) p.1)) ↔ (fun i => i % 2 == 0) 1 = false)) ∧
    pipeFit (fun l => l) (trainOf (fun i => i % 2 == 0) ([10, 20, 30] : List Nat)) =
      pipeFit (fun l => l) (trainOf (fun i => i % 2 == 0) ([10, 20, 30] : List Nat)) :=
  ⟨(random_split_partition_fit (M := List Nat) (fun i => i % 2 == 0) [10, 20, 30]).1,
   (random_split_partition_fit (M := List Nat) (fun i => i % 2 == 0) [10, 20, 30]).2.2.1
     (1, 20) (by decide),
   (random_split_partition_fit (M := List Nat) (fun i => i % 2 == 0) [10, 20, 30]).2.2.2.2.1
     (fun l => l) (fun i => i % 2 == 0) [10, 20, 30] rfl⟩

/-! ## Claim theorems: vector assembly, parameter grid, column rename -/

/-- Claim C5: the feature vector is assembled from exactly the columns of
the renamed wine frame minus the first (`target`): 13 columns, `target`
excluded, every non-target column included, and on a full row the
assembled vector is the row minus its first cell, in column order. -/
theorem assembler_features_exact :
    assemblerInputCols.length = 13 ∧
    "target" ∉ assemblerInputCols ∧
    (∀ c, c ∈ assemblerInputCols ↔ (c ∈ renamedColNames ∧ c ≠ "target")) ∧
    (∀ v0 v1 v2 v3 v4 v5 v6 v7 v8 v9 v10 v11 v12 v13 : Rat,
      assembleRow renamedColNames assemblerInputCols
          [v0, v1, v2, v3, v4, v5, v6, v7, v8, v9, v10, v11, v12, v13] =
        [v1, v2, v3, v4, v5, v6, v7, v8, v9, v10, v11, v12, v13] ∧
      [v1, v2, v3, v4, v5, v6, v7, v8, v9, v10, v11, v12, v13] =
        List.drop 1 [v0, v1, v2, v3, v4, v5, v6, v7, v8, v9, v10, v11, v12, v13]) := by
  have hcons : renamedColNames = "target" :: assemblerInputCols := by decide
  have htail : "target" ∉ assemblerInputCols := by decide
  refine ⟨by decide, htail, ?_, ?_⟩
  · intro c
    constructor
    · intro hc
      refine ⟨?_, ?_⟩
      · rw [hcons]
        exact List.mem_cons_of_mem _ hc
      · rintro rfl
        exact htail hc
    · rintro ⟨hc, hne⟩
      rw [hcons] at hc
      rcases List.mem_cons.mp hc with h | h
      · exact absurd h hne
      · exact h
  · intro v0 v1 v2 v3 v4 v5 v6 v7 v8 v9 v10 v11 v12 v13
    exact ⟨rfl, rfl⟩

/-- Claim C5 witness: a non-target column satisfies the membership
characterisation, and the assembled vector of a concrete 14-cell row is
the row minus its first cell. -/
theorem assembler_features_exact_witness :
    ("alcohol" ∈ assemblerInputCols ↔
      ("alcohol" ∈ renamedColNames ∧ "alcohol" ≠ "target")) ∧
    assembleRow renamedColNames assemblerInputCols
        [0, 1, 2, 3, 4, 5, 6, 7, 8, 9, 10, 11, 12, 13] =
      [1, 2, 3, 4, 5, 6, 7, 8, 9, 10, 11, 12, 13] :=
  ⟨assembler_features_exact.2.2.1 "alcohol",
   (assembler_features_exact.2.2.2 0 1 2 3 4 5 6 7 8 9 10 11 12 13).1⟩

/-- Claim C6: the grid is exactly the 9 distinct combinations of
numTrees in {50, 100, 150} and maxDepth in {5, 10, 15}, cross-validation
uses 5 folds, and the average metrics hold one entry per combination. -/
theorem param_grid_cv_exact :
    paramGrid.length = 9 ∧
    paramGrid.Nodup ∧
    (∀ p : Nat × Nat, p ∈ paramGrid ↔ (p.1 ∈ numTreesGrid ∧ p.2 ∈ maxDepthGrid)) ∧
    numFolds = 5 ∧
    (∀ score : Nat × Nat → Nat → Rat, (cvAvgMetrics score).length = 9) := by
  refine ⟨by decide, by decide, ?_, rfl, ?_⟩
  · rintro ⟨a, b⟩
    simp only [paramGrid, List.mem_flatMap, List.mem_map, Prod.mk.injEq]
    constructor
    · rintro ⟨n, hn, d, hd, rfl, rfl⟩
      exact ⟨hn, hd⟩
    · rintro ⟨ha, hb⟩
      exact ⟨a, ha, b, hb, rfl, rfl⟩
  · intro score
    rw [cvAvgMetrics, List.length_map]
    decide

/-- Claim C6 witness: a concrete combination belongs to the grid, and a
concrete scoring function yields 9 average metrics. -/
theorem param_grid_cv_exact_witness :
    ((100, 15) ∈ paramGrid ↔ ((100 : Nat) ∈ numTreesGrid ∧ (15 : Nat) ∈ maxDepthGrid)) ∧
    (cvAvgMetrics (fun _ _ => 1)).length = 9 :=
  ⟨param_grid_cv_exact.2.2.1 (100, 15),
   param_grid_cv_exact.2.2.2.2 (fun _ _ => 1)⟩

/-- Claim C7: renaming `od280_od315_of_diluted_wines` to `od280` changes
only that one column name (position 12): the rows (hence the row count and
every cell value) are unchanged, the number and order of columns are
unchanged, every other position keeps its name, and position 12 becomes
`od280`. -/
theorem rename_changes_only_od280 (df : Frame) (h : df.cols = colNames) :
    (withColumnRenamed "od280_od315_of_diluted_wines" "od280" df).rows = df.rows ∧
    (withColumnRenamed "od280_od315_of_diluted_wines" "od280" df).cols = renamedColNames ∧
    (withColumnRenamed "od280_od315_of_diluted_wines" "od280" df).cols.length =
      df.cols.length ∧
    (∀ i : Fin 14, i.val ≠ 12 →
      (withColumnRenamed "od280_od315_of_diluted_wines" "od280" df).cols.getD i.val "" =
        df.cols.getD i.val "") ∧
    (withColumnRenamed "od280_od315_of_diluted_wines" "od280" df).cols.getD 12 "" =
      "od280" := by
  obtain ⟨cols, rows⟩ := df
  simp only [Frame.cols] at h
  subst h
  refine ⟨rfl, rfl, ?_, ?_, ?_⟩
  · show renamedColNames.length = colNames.length
    decide
  · show ∀ i : Fin 14, i.val ≠ 12 → renamedColNames.getD i.val "" = colNames.getD i.val ""
    decide
  · show renamedColNames.getD 12 "" = "od280"
    decide

/-- Claim C7 witness: the rename applied to a concrete frame with the wine
columns. -/
theorem rename_changes_only_od280_witness :
    (withColumnRenamed "od280_od315_of_diluted_wines" "od280"
        (Frame.mk colNames [])).rows = ([] : List (List Rat)) ∧
    (withColumnRenamed "od280_od315_of_diluted_wines" "od280"
        (Frame.mk colNames [])).cols = renamedColNames ∧
    (withColumnRenamed "od280_od315_of_diluted_wines" "od280"
        (Frame.mk colNames [])).cols.getD 0 "" =
      (Frame.mk colNames ([] : List (List Rat))).cols.getD 0 "" := by
  have h := rename_changes_only_od280 (Frame.mk colNames []) rfl
  exact ⟨h.1, h.2.1, h.2.2.2.1 ⟨0, by decide⟩ (by decide)⟩

/-! ## Claim theorem: SQL query versus DataFrame chain -/

/-- Claim C9: for every dataframe, the SQL query
(SELECT target, ROUND(AVG(alcohol), 2) AS avgAlcohol FROM wine GROUP BY
target ORDER BY target) and the DataFrame chain (select target and
alcohol, groupBy target, agg round(avg(alcohol), 2), orderBy target)
compute the same result table: the same rows with the same values in the
same order. -/
theorem sql_df_avg_alcohol_equiv (rows : List (List Rat)) :
    sqlAvgAlcohol rows = dfAvgAlcohol rows := by
  unfold sqlAvgAlcohol dfAvgAlcohol
  have hfst : (selectTargetAlcohol rows).map Prod.fst = rows.map targetOf := by
    simp only [selectTargetAlcohol, List.map_map]
    rfl
  rw [hfst]
  have hval : ∀ t : Rat,
      ((selectTargetAlcohol rows).filter (fun p => p.1 == t)).map Prod.snd =
        (rows.filter (fun r => targetOf r == t)).map alcoholOf := by
    intro t
    rw [selectTargetAlcohol, List.filter_map, List.map_map]
    rfl
  congr 1
  apply List.map_congr_left
  intro t ht
  rw [hval t]

end SparkSpec
